import Mathlib

/-!
Formal model of the request-dispatch core of the `type-mvc` repository:
the `ControllerRoute` class (route matching, normal dispatch, CORS
preflight handling, result serialization) and the `MiddlewareChain`
class (ordered middleware insertion).  Each TypeScript function of the
dispatch core is embedded as an executable Lean definition, and the
behavioural properties of the specification are stated and settled as
theorems about those definitions.
-/

/-- JavaScript string truthiness: a string is truthy iff it is nonempty. -/
def strTruthy (s : String) : Bool := s != ""

/-- JavaScript `a || b` on an optional string value: the fallback `b` is
used when `a` is `undefined` or the empty string. -/
def jsOrStr (a : Option String) (b : String) : String :=
  match a with
  | some s => if strTruthy s then s else b
  | none => b

/-- Index of the first occurrence of the substring `"/:"` in a character
list, as in the JavaScript `uri.indexOf('/:')` (`none` models `-1`). -/
def restIdx : List Char → Option Nat
  | [] => none
  | '/' :: ':' :: _ => some 0
  | _ :: rest => (restIdx rest).map (· + 1)

/-- Model of `ControllerRoute.isRestUri`: the regular expression
test for `"/:"` occurring in the uri (`/\/:/.test(uri || '')`). -/
def isRestUri (uri : String) : Bool := (restIdx uri.data).isSome

/-- Model of `uri.substr(0, uri.indexOf('/:'))`: the static part of a
REST route pattern, i.e. the text before the first `"/:"` marker. -/
def restUrlOf (uri : String) : String :=
  match restIdx uri.data with
  | some i => ⟨uri.data.take i⟩
  | none => uri

/-- JavaScript `routPath.indexOf(url) === 0`. -/
def jsStartsWith (routPath url : String) : Bool :=
  List.isPrefixOf url.data routPath.data

/-- Route metadata record attached to a handler method by a route
decorator: `{ route?, propertyKey, contentType? }` (the fields of
`RouteMetadata` that the dispatch core reads). -/
structure RouteMetadata where
  route : Option String
  propertyKey : String
  contentType : Option String
  deriving Repr, DecidableEq

/-- Length of the (possibly missing) route pattern, as used by the sort
comparator `(ra, rb) => (rb.route || '').length - (ra.route || '').length`. -/
def routeLen (m : RouteMetadata) : Nat := (m.route.getD "").length

/-- Ordering produced by the comparator in `getRouteMetaData`:
descending route-pattern length. -/
def byLenDesc (ra rb : RouteMetadata) : Prop := routeLen rb ≤ routeLen ra

instance : DecidableRel byLenDesc := fun _ _ => Nat.decLe _ _

instance : IsTotal RouteMetadata byLenDesc :=
  ⟨fun a b => Nat.le_total (routeLen b) (routeLen a)⟩

instance : IsTrans RouteMetadata byLenDesc :=
  ⟨fun _ _ _ hab hbc => Nat.le_trans hbc hab⟩

/-- The method-metadata map returned by `getMethodMetadata`: handler
property names mapped to their lists of route-metadata entries. -/
abbrev MethodMaps : Type := List (String × List RouteMetadata)

/-- Model of the flattening loop in `getRouteMetaData`:
`for (let name in methodMaps) { allMethods = allMethods.concat(methodMaps[name]); }`. -/
def flattenVals (maps : MethodMaps) : List RouteMetadata :=
  maps.foldl (fun acc p => acc ++ p.2) []

/-- Candidate list of `getRouteMetaData`: all entries of the selected
decorator bucket, sorted by descending route-pattern length (a stable
sort, as JavaScript `Array.prototype.sort` is). -/
def candidates (maps : MethodMaps) : List RouteMetadata :=
  List.insertionSort byLenDesc (flattenVals maps)

/-- First-pass predicate of `getRouteMetaData`:
`(route.route || '') === routPath`. -/
def exactPred (routPath : String) (r : RouteMetadata) : Bool :=
  (r.route.getD "") == routPath

/-- Second-pass predicate of `getRouteMetaData`: the pattern contains a
`"/:"` marker, its static part differs from the request path, and the
request path starts with the static part. -/
def restPred (routPath : String) (r : RouteMetadata) : Bool :=
  let uri := r.route.getD ""
  if isRestUri uri then
    let url := restUrlOf uri
    url != routPath && jsStartsWith routPath url
  else
    false

/-- Model of `ControllerRoute.getRouteMetaData`: `routPath` is the
normalized request path (the request url with the controller's mount
prefix already stripped, as computed by `cutEmptyPath`), and `maps` is
the metadata map of the decorator bucket for the request method.  The
entries are flattened, sorted by descending route-pattern length, then
searched for an exact match and, failing that, a REST-prefix match. -/
def getRouteMetaData (routPath : String) (maps : MethodMaps) : Option RouteMetadata :=
  match (candidates maps).find? (exactPred routPath) with
  | some m => some m
  | none => (candidates maps).find? (restPred routPath)

theorem foldl_append_flatten (maps : MethodMaps) :
    ∀ acc : List RouteMetadata,
      maps.foldl (fun acc p => acc ++ p.2) acc = acc ++ (maps.map Prod.snd).flatten := by
  induction maps with
  | nil => intro acc; simp
  | cons p ps ih => intro acc; simp [List.foldl_cons, ih, List.append_assoc]

theorem mem_flattenVals {maps : MethodMaps} {m : RouteMetadata} :
    m ∈ flattenVals maps ↔ ∃ p ∈ maps, m ∈ p.2 := by
  unfold flattenVals
  rw [foldl_append_flatten]
  simp only [List.nil_append, List.mem_flatten, List.mem_map, Prod.exists]
  constructor
  · rintro ⟨l, ⟨a, b, hab, rfl⟩, hm⟩
    exact ⟨a, b, hab, hm⟩
  · rintro ⟨a, b, hab, hm⟩
    exact ⟨b, ⟨a, b, hab, rfl⟩, hm⟩

theorem mem_candidates {maps : MethodMaps} {m : RouteMetadata} :
    m ∈ candidates maps ↔ m ∈ flattenVals maps := by
  unfold candidates
  exact List.mem_insertionSort byLenDesc

/-- C1: for every metadata set, if exactly one entry's route pattern
equals the normalized request path, `getRouteMetaData` returns that
entry, regardless of any other (REST-parameter or otherwise) entries
present in the set. -/
theorem C1_exact_match_unique (maps : MethodMaps) (routPath : String) (m : RouteMetadata)
    (hmem : m ∈ flattenVals maps)
    (hexact : m.route.getD "" = routPath)
    (huniq : ∀ m' ∈ flattenVals maps, m'.route.getD "" = routPath → m' = m) :
    getRouteMetaData routPath maps = some m := by
  have hmem' : m ∈ candidates maps := mem_candidates.mpr hmem
  have hne : (candidates maps).find? (exactPred routPath) ≠ none := by
    intro h
    rw [List.find?_eq_none] at h
    exact h m hmem' (by simp [exactPred, hexact])
  obtain ⟨y, hy⟩ := Option.ne_none_iff_exists'.mp hne
  have hpy : exactPred routPath y = true := List.find?_some hy
  have hmy : y ∈ flattenVals maps := mem_candidates.mp (List.mem_of_find?_eq_some hy)
  have hym : y = m := huniq y hmy (by simpa [exactPred] using hpy)
  unfold getRouteMetaData
  rw [hy, hym]

/-- Witness for C1 at a concrete metadata set: one exact entry for
`"/users"` alongside a REST entry `"/users/:id"`; the exact entry is
returned. -/
theorem C1_witness :
    getRouteMetaData "/users"
      [("list", [⟨some "/users", "list", none⟩]),
       ("byId", [⟨some "/users/:id", "byId", none⟩])] =
      some ⟨some "/users", "list", none⟩ :=
  C1_exact_match_unique _ _ _ (by decide) (by decide) (by decide)

/-- REST entry whose full pattern is long but whose static part `"/a"` is short. -/
def c2A : RouteMetadata := ⟨some "/a/:longparamname", "a", none⟩

/-- REST entry whose full pattern is short but whose static part `"/ab"` is longer. -/
def c2B : RouteMetadata := ⟨some "/ab/:x", "b", none⟩

/-- Metadata set holding the two overlapping REST entries `c2A` and `c2B`. -/
def c2Maps : MethodMaps := [("a", [c2A]), ("b", [c2B])]

/-- C2, counterexample: for the request path `"/ab/1"` both REST entries are
compatible and neither matches exactly; `c2B` has the strictly longer static
part (`"/ab"` vs `"/a"`), yet the matcher returns `c2A`, because candidates
are ordered by full route-pattern length, not by static-part length. -/
theorem C2_counterexample :
    restPred "/ab/1" c2A = true ∧ restPred "/ab/1" c2B = true ∧
    exactPred "/ab/1" c2A = false ∧ exactPred "/ab/1" c2B = false ∧
    (restUrlOf (c2B.route.getD "")).length > (restUrlOf (c2A.route.getD "")).length ∧
    getRouteMetaData "/ab/1" c2Maps = some c2A := by
  decide

theorem find?_max_of_pairwise {α : Type} {R : α → α → Prop} {p : α → Bool} {key : α → Nat}
    (hR : ∀ a b, R a b → key b ≤ key a) :
    ∀ {l : List α}, l.Pairwise R → ∀ {m : α}, l.find? p = some m →
      ∀ x ∈ l, p x = true → key x ≤ key m := by
  intro l
  induction l with
  | nil => intro _ m h; simp at h
  | cons a l ih =>
    intro hpw m hfind x hx hpx
    rw [List.pairwise_cons] at hpw
    rw [List.mem_cons] at hx
    by_cases hpa : p a
    · rw [List.find?_cons_of_pos _ hpa] at hfind
      cases hfind
      rcases hx with rfl | hx
      · exact Nat.le_refl _
      · exact hR _ _ (hpw.1 x hx)
    · rw [List.find?_cons_of_neg _ hpa] at hfind
      rcases hx with rfl | hx
      · exact absurd hpx hpa
      · exact ih hpw.2 hfind x hx hpx

theorem pairwise_candidates (maps : MethodMaps) :
    (candidates maps).Pairwise byLenDesc :=
  List.sorted_insertionSort byLenDesc (flattenVals maps)

/-- C2, amended: for every metadata set containing overlapping REST
patterns and every request path compatible with more than one of them
(and matching none exactly), the matcher returns a compatible candidate
whose full route-pattern length is maximal among all compatible
candidates (candidates are considered in order of descending full
route-pattern length); this candidate need not have the longest static
part, as `C2_counterexample` shows. -/
theorem C2_longest_pattern (maps : MethodMaps) (routPath : String)
    (hnoexact : ∀ m ∈ flattenVals maps, exactPred routPath m = false)
    (m0 : RouteMetadata) (hm0 : m0 ∈ flattenVals maps)
    (hc : restPred routPath m0 = true) :
    ∃ m, getRouteMetaData routPath maps = some m ∧ restPred routPath m = true ∧
      ∀ m' ∈ flattenVals maps, restPred routPath m' = true → routeLen m' ≤ routeLen m := by
  have hexactNone : (candidates maps).find? (exactPred routPath) = none := by
    rw [List.find?_eq_none]
    intro x hx hpx
    exact absurd (hnoexact x (mem_candidates.mp hx)) (by simp [hpx])
  have hne : (candidates maps).find? (restPred routPath) ≠ none := by
    intro h
    rw [List.find?_eq_none] at h
    exact h m0 (mem_candidates.mpr hm0) (by simp [hc])
  obtain ⟨m, hm⟩ := Option.ne_none_iff_exists'.mp hne
  refine ⟨m, ?_, List.find?_some hm, ?_⟩
  · unfold getRouteMetaData
    rw [hexactNone, hm]
  · intro m' hm' hpm'
    exact find?_max_of_pairwise (fun _ _ h => h) (pairwise_candidates maps) hm
      m' (mem_candidates.mpr hm') hpm'

/-- Metadata set of the specification's own overlapping-REST example. -/
def c2wMaps : MethodMaps :=
  [("byId", [⟨some "/users/:id", "byId", none⟩]),
   ("orders", [⟨some "/users/:id/orders", "orders", none⟩])]

/-- Witness for C2 at the specification's example: for
`GET /users/42/orders` both entries are compatible and the entry with
the longer full pattern (`"/users/:id/orders"`) wins. -/
theorem C2_witness :
    ∃ m, getRouteMetaData "/users/42/orders" c2wMaps = some m ∧
      restPred "/users/42/orders" m = true ∧
      ∀ m' ∈ flattenVals c2wMaps, restPred "/users/42/orders" m' = true →
        routeLen m' ≤ routeLen m :=
  C2_longest_pattern c2wMaps "/users/42/orders" (by decide)
    ⟨some "/users/:id", "byId", none⟩ (by decide) (by decide)

/-- ASCII lower-casing of a string, as JavaScript
`method.toLowerCase()` behaves on ASCII method names. -/
def jsToLowerCase (s : String) : String := ⟨s.data.map Char.toLower⟩

/-- Route decorator buckets of the dispatch core (`Get`, `Post`, `Put`,
`Delete`, `Options` from `../decorators`). -/
inductive Decorator
  | Get
  | Post
  | Put
  | Delete
  | Options
  deriving Repr, DecidableEq

/-- Modelled from the spec: the `RequestMethod` enum of the repository's
`RequestMethod.ts`, which is not among the provided sources (only its
importers are); the spec names the verbs GET/HEAD/PUT/POST/DELETE/PATCH
and OPTIONS. -/
inductive RequestMethod
  | Get
  | Head
  | Post
  | Put
  | Delete
  | Options
  | Patch
  deriving Repr, DecidableEq

/-- Modelled from the spec: `methodToString` of the missing
`RequestMethod.ts`, rendering a verb as its upper-case HTTP name. -/
def methodToString : RequestMethod → String
  | .Get => "GET"
  | .Head => "HEAD"
  | .Post => "POST"
  | .Put => "PUT"
  | .Delete => "DELETE"
  | .Options => "OPTIONS"
  | .Patch => "PATCH"

/-- Modelled from the spec: `parseRequestMethod` of the missing
`RequestMethod.ts`, parsing an upper-case HTTP verb name. -/
def parseRequestMethod (s : String) : RequestMethod :=
  if s = "GET" then .Get
  else if s = "HEAD" then .Head
  else if s = "POST" then .Post
  else if s = "PUT" then .Put
  else if s = "DELETE" then .Delete
  else if s = "OPTIONS" then .Options
  else if s = "PATCH" then .Patch
  else .Get

/-- Argument of `getDecoratorByMethod`: a JavaScript
`string | RequestMethod` value (`isNumber` distinguishes the enum). -/
inductive JsMethod
  | str (s : String)
  | num (m : RequestMethod)
  deriving Repr, DecidableEq

/-- Model of `ControllerRoute.getDecoratorByMethod`: an enum value is
rendered with `methodToString`; a string is lower-cased; the result is
then compared against the literal case labels of the switch, which are
`'GET'`, `'POST'`, `'Put'`, `'DElETE'`, `'OPTIONS'`, with `Get` as the
default. -/
def getDecoratorByMethod (method : JsMethod) : Decorator :=
  let m : String :=
    match method with
    | .num v => methodToString v
    | .str s => jsToLowerCase s
  if m = "GET" then .Get
  else if m = "POST" then .Post
  else if m = "Put" then .Put
  else if m = "DElETE" then .Delete
  else if m = "OPTIONS" then .Options
  else .Get

theorem toLower_toNat_not_upper (c : Char) :
    ¬(65 ≤ (Char.toLower c).toNat ∧ (Char.toLower c).toNat ≤ 90) := by
  have hdef : Char.toLower c =
      if c.toNat ≥ 65 ∧ c.toNat ≤ 90 then Char.ofNat (c.toNat + 32) else c := rfl
  rw [hdef]
  by_cases h : c.toNat ≥ 65 ∧ c.toNat ≤ 90
  · rw [if_pos h]
    obtain ⟨h1, h2⟩ := h
    generalize c.toNat = n at h1 h2 ⊢
    interval_cases n <;> decide
  · rw [if_neg h]
    intro hc
    exact h ⟨hc.1, hc.2⟩

theorem jsToLowerCase_ne (s L : String)
    (hL : ∃ c ∈ L.data, 65 ≤ c.toNat ∧ c.toNat ≤ 90) :
    jsToLowerCase s ≠ L := by
  intro h
  obtain ⟨c, hc, hcu⟩ := hL
  rw [← h] at hc
  have : c ∈ s.data.map Char.toLower := hc
  rw [List.mem_map] at this
  obtain ⟨d, _, rfl⟩ := this
  exact toLower_toNat_not_upper d hcu

/-- The switch of `getDecoratorByMethod` is dead for string inputs: a
lower-cased string never equals any of its (upper-case-containing) case
labels, so every string method falls through to the `Get` default. -/
theorem getDecoratorByMethod_str (s : String) :
    getDecoratorByMethod (JsMethod.str s) = Decorator.Get := by
  unfold getDecoratorByMethod
  rw [if_neg (jsToLowerCase_ne s "GET" ⟨'G', by decide, by decide⟩)]
  rw [if_neg (jsToLowerCase_ne s "POST" ⟨'P', by decide, by decide⟩)]
  rw [if_neg (jsToLowerCase_ne s "Put" ⟨'P', by decide, by decide⟩)]
  rw [if_neg (jsToLowerCase_ne s "DElETE" ⟨'D', by decide, by decide⟩)]
  rw [if_neg (jsToLowerCase_ne s "OPTIONS" ⟨'O', by decide, by decide⟩)]

/-- C3: the claim says the bucket corresponds to the method for
GET/POST/PUT/DELETE/OPTIONS with `Get` as default for anything else;
the code instead lower-cases every string method and then compares it
against upper-case case labels (and the labels for PUT and DELETE are
misspelled `'Put'`/`'DElETE'`), so every string method — including
`"POST"`, `"PUT"`, `"DELETE"` and `"OPTIONS"` — selects the `Get`
bucket, and via the enum path `Put`/`Delete` also fall to `Get`. -/
theorem C3_eval :
    getDecoratorByMethod (JsMethod.str "POST") = Decorator.Get ∧
    getDecoratorByMethod (JsMethod.str "PUT") = Decorator.Get ∧
    getDecoratorByMethod (JsMethod.str "DELETE") = Decorator.Get ∧
    getDecoratorByMethod (JsMethod.str "OPTIONS") = Decorator.Get ∧
    getDecoratorByMethod (JsMethod.str "GET") = Decorator.Get ∧
    getDecoratorByMethod (JsMethod.str "") = Decorator.Get ∧
    getDecoratorByMethod (JsMethod.num RequestMethod.Put) = Decorator.Get ∧
    getDecoratorByMethod (JsMethod.num RequestMethod.Delete) = Decorator.Get ∧
    getDecoratorByMethod (JsMethod.num RequestMethod.Post) = Decorator.Post := by
  decide

/-- Modelled from the spec: the error classes of the repository's
`errors/` module, which is not among the provided sources.  Per the
spec's error-handling design, every recognized HTTP error kind carries
an integer status code and a message (NotFound 404, BadRequest 400,
Unauthorized 401); `other` stands for any fault that is not an
`HttpError` instance. -/
inductive Err
  | http (code : Nat) (message : String)
  | other (info : String)
  deriving Repr, DecidableEq

/-- Modelled from the spec: `NotFoundError`, status 404. -/
def notFoundError : Err := .http 404 "Not Found"

/-- Modelled from the spec: `BadRequestError`, status 400. -/
def badRequestError : Err := .http 400 "Bad Request"

/-- Modelled from the spec: `UnauthorizedError`, status 401. -/
def unauthorizedError : Err := .http 401 "Unauthorized"

/-- Response body of the context: unset, a string, or an object value
(objects are identified by an opaque numeric id). -/
inductive Body
  | empty
  | str (s : String)
  | obj (objId : Nat)
  deriving Repr, DecidableEq

/-- Model of a `ResultValue` instance returned by a handler (such as
`JsonResult`): a content type together with its data payload; its
`sendValue` sets the context type and body, as `JsonResult.sendValue`
does. -/
structure ResultVal where
  contentType : String
  objId : Nat
  deriving Repr, DecidableEq

/-- A handler return value, by the JavaScript type tests the dispatch
code applies to it (`isString`, `isObject`, `instanceof ResultValue`).
A `Uint8Array` return is not modelled separately: `isArray` is false
for typed arrays, so the `Buffer.from` branch of the source is
unreachable and such a value takes the plain-object branch. -/
inductive HandlerResponse
  | str (s : String)
  | result (rv : ResultVal)
  | obj (objId : Nat)
  | voidVal
  deriving Repr, DecidableEq

/-- Observable side effects of a dispatch, in the order the code
performs them. -/
inductive Effect
  | gotController
  | gotMethodParameters
  | containerInvoke (propertyKey : String)
  | sentResultValue
  | consoleError
  deriving Repr, DecidableEq

/-- Request/response context: the fields of the Koa-style `IContext`
that the dispatch core reads and mutates.  `routPath` is the normalized
request path (the url with the controller's mount prefix stripped). -/
structure Ctx where
  method : String
  routPath : String
  reqHeaders : List (String × String)
  respHeaders : List (String × String)
  varied : List String
  status : Nat
  message : String
  type : String
  body : Body
  deriving Repr, DecidableEq

/-- External collaborators of one dispatch, at their interface boundary:
the metadata registry per decorator bucket (`getMethodMetadata`), the
container's authorization capability (`has(IAuthorization)`,
`isAuth()`), the per-handler authorization requirement
(`Reflect.hasMetadata(Authorization, ctrl, propertyKey)`), and the
outcome of `container.invoke` for each handler. -/
structure DispatchEnv where
  registry : Decorator → MethodMaps
  hasAuthService : Bool
  hasAuthMetadata : String → Bool
  isAuth : Bool
  invokeResult : String → Except Err HandlerResponse

/-- Model of the result-serialization tail of `ControllerRoute.invoke`:
a string response sets the body only — the local `contentType`
variable (`meta.contentType || 'text/html'`) is computed but never
assigned to the context in that branch; a `ResultValue` delegates to
its own `sendValue`; any other object is JSON-serialized with content
type `meta.contentType || 'application/json'`. -/
def serializeResponse (meta : RouteMetadata) (response : HandlerResponse) (ctx : Ctx) :
    Ctx × List Effect :=
  match response with
  | .str s => ({ ctx with body := .str s }, [])
  | .result rv =>
      ({ ctx with type := rv.contentType, body := .obj rv.objId }, [.sentResultValue])
  | .obj o =>
      let contentType := jsOrStr meta.contentType "application/json"
      ({ ctx with type := contentType, body := .obj o }, [])
  | .voidVal => (ctx, [])

/-- Model of `ControllerRoute.invoke`: match the route metadata for the
decorator bucket; if an entry with a truthy `propertyKey` is found,
fetch the controller, run the authorization gate, bind parameters and
invoke the handler through the container, then serialize the result;
otherwise throw `NotFoundError`. -/
def routeInvoke (env : DispatchEnv) (ctx : Ctx) (decorator : Decorator) :
    Except Err Ctx × List Effect :=
  match getRouteMetaData ctx.routPath (env.registry decorator) with
  | some meta =>
      if strTruthy meta.propertyKey then
        if env.hasAuthService && env.hasAuthMetadata meta.propertyKey && !env.isAuth then
          (.error unauthorizedError, [.gotController])
        else
          match env.invokeResult meta.propertyKey with
          | .error e =>
              (.error e, [.gotController, .gotMethodParameters, .containerInvoke meta.propertyKey])
          | .ok response =>
              let (ctx', eff) := serializeResponse meta response ctx
              (.ok ctx',
               [.gotController, .gotMethodParameters, .containerInvoke meta.propertyKey] ++ eff)
      else
        (.error notFoundError, [])
  | none => (.error notFoundError, [])

/-- Body of the `try` block of `ControllerRoute.navigating`: resolve the
decorator bucket from the (string) request method; a non-`Options`
bucket dispatches through `routeInvoke`, the `Options` bucket throws
`BadRequestError`. -/
def navStep (env : DispatchEnv) (ctx : Ctx) : Except Err Ctx × List Effect :=
  let decorator := getDecoratorByMethod (JsMethod.str ctx.method)
  if decorator ≠ Decorator.Options then
    routeInvoke env ctx decorator
  else
    (.error badRequestError, [])

/-- Outcome of `navigating`: the final context, the side effects
performed, and whether the `next()` continuation was called. -/
structure NavResult where
  ctx : Ctx
  effects : List Effect
  nextCalled : Bool
  deriving Repr, DecidableEq

/-- Model of `ControllerRoute.navigating`: run the dispatch step; on
success call `next()`; a caught `HttpError` sets the response status
and message from the error, and any other fault sets status 500 and is
reported via `console.error`.  `navigating` is a total function: no
fault of the dispatch step propagates past it. -/
def navigating (env : DispatchEnv) (ctx : Ctx) : NavResult :=
  match navStep env ctx with
  | (.ok ctx', eff) => ⟨ctx', eff, true⟩
  | (.error (.http code msg), eff) => ⟨{ ctx with status := code, message := msg }, eff, false⟩
  | (.error (.other _), eff) => ⟨{ ctx with status := 500 }, eff ++ [.consoleError], false⟩

/-- Registry with a single GET-bucket handler `"go"` for `"/items"`. -/
def c4Env : DispatchEnv where
  registry := fun d => match d with
    | .Get => [("go", [⟨some "/items", "go", none⟩])]
    | _ => []
  hasAuthService := false
  hasAuthMetadata := fun _ => false
  isAuth := true
  invokeResult := fun _ => .ok (.str "hi")

/-- An `OPTIONS` request reaching `navigating`. -/
def c4Ctx : Ctx := ⟨"OPTIONS", "/items", [], [], [], 200, "", "", .empty⟩

/-- C4, evaluation at the failing input: a request whose method is
`"OPTIONS"` should resolve to the `Options` bucket and make `navigating`
fail with status 400 before any matching or handler invocation; instead
the method resolves to the `Get` bucket (see `C3_eval`), so `navigating`
runs matching, invokes the GET handler `"go"`, leaves the status
untouched and calls `next()` — the 400 branch is unreachable for string
methods. -/
theorem C4_eval :
    getDecoratorByMethod (JsMethod.str "OPTIONS") = Decorator.Get ∧
    (navigating c4Env c4Ctx).ctx.status = 200 ∧
    (navigating c4Env c4Ctx).ctx.status ≠ 400 ∧
    Effect.containerInvoke "go" ∈ (navigating c4Env c4Ctx).effects ∧
    (navigating c4Env c4Ctx).nextCalled = true := by
  decide

/-- C5: for every request dispatched through `navigating` where the
authorization capability is registered in the container, the resolved
handler carries an authorization requirement, and `isAuth()` is false,
the dispatch yields the Unauthorized response (status 401), `next()` is
not called, and neither `getMethodParameters` nor `container.invoke`
is executed. -/
theorem C5_unauthorized (env : DispatchEnv) (ctx : Ctx) (meta : RouteMetadata)
    (hmeta : getRouteMetaData ctx.routPath
        (env.registry (getDecoratorByMethod (JsMethod.str ctx.method))) = some meta)
    (hpk : strTruthy meta.propertyKey = true)
    (hsvc : env.hasAuthService = true)
    (hreq : env.hasAuthMetadata meta.propertyKey = true)
    (hauth : env.isAuth = false) :
    (navigating env ctx).ctx.status = 401 ∧
    (navigating env ctx).ctx.message = "Unauthorized" ∧
    Effect.gotMethodParameters ∉ (navigating env ctx).effects ∧
    (∀ pk, Effect.containerInvoke pk ∉ (navigating env ctx).effects) ∧
    (navigating env ctx).nextCalled = false := by
  have hdec := getDecoratorByMethod_str ctx.method
  rw [hdec] at hmeta
  have hstep : navStep env ctx = (.error (.http 401 "Unauthorized"), [.gotController]) := by
    unfold navStep
    rw [hdec]
    rw [if_pos (by decide : Decorator.Get ≠ Decorator.Options)]
    unfold routeInvoke
    rw [hmeta]
    simp [hpk, hsvc, hreq, hauth, unauthorizedError]
  unfold navigating
  rw [hstep]
  simp

/-- Environment with a guarded GET handler `"secret"`: the authorization
capability is registered, the handler carries the authorization
requirement, and `isAuth()` reports false. -/
def c5Env : DispatchEnv where
  registry := fun d => match d with
    | .Get => [("secret", [⟨some "/secret", "secret", none⟩])]
    | _ => []
  hasAuthService := true
  hasAuthMetadata := fun pk => pk == "secret"
  isAuth := false
  invokeResult := fun _ => .ok (.str "data")

/-- A `GET /secret` request for the guarded handler. -/
def c5Ctx : Ctx := ⟨"GET", "/secret", [], [], [], 200, "", "", .empty⟩

/-- Witness for C5: dispatching `GET /secret` against `c5Env` yields the
Unauthorized response and performs no parameter binding or handler
invocation. -/
theorem C5_witness :
    (navigating c5Env c5Ctx).ctx.status = 401 ∧
    (navigating c5Env c5Ctx).ctx.message = "Unauthorized" ∧
    Effect.gotMethodParameters ∉ (navigating c5Env c5Ctx).effects ∧
    (∀ pk, Effect.containerInvoke pk ∉ (navigating c5Env c5Ctx).effects) ∧
    (navigating c5Env c5Ctx).nextCalled = false :=
  C5_unauthorized c5Env c5Ctx ⟨some "/secret", "secret", none⟩
    (by decide) (by decide) rfl (by decide) rfl

/-- C6: every fault raised during the dispatch step of `navigating` is
translated at its boundary and does not propagate: a recognized
HTTP-error kind sets the response status and message to the error's
code and message (with nothing sent to the operator channel), any
other fault sets status 500 and is reported via `console.error`, and —
for the NotFound case — a request whose metadata lookup yields no
entry ends with status 404.  `navigating` returns a result in every
case, so no fault escapes it. -/
theorem C6_fault_translation (env : DispatchEnv) (ctx : Ctx) :
    (∀ code msg eff, navStep env ctx = (.error (.http code msg), eff) →
      (navigating env ctx).ctx.status = code ∧
      (navigating env ctx).ctx.message = msg ∧
      (navigating env ctx).effects = eff ∧
      (navigating env ctx).nextCalled = false) ∧
    (∀ info eff, navStep env ctx = (.error (.other info), eff) →
      (navigating env ctx).ctx.status = 500 ∧
      Effect.consoleError ∈ (navigating env ctx).effects ∧
      (navigating env ctx).nextCalled = false) ∧
    (getRouteMetaData ctx.routPath
        (env.registry (getDecoratorByMethod (JsMethod.str ctx.method))) = none →
      (navigating env ctx).ctx.status = 404 ∧
      (navigating env ctx).effects = []) := by
  refine ⟨?_, ?_, ?_⟩
  · intro code msg eff h
    unfold navigating
    rw [h]
    simp
  · intro info eff h
    unfold navigating
    rw [h]
    simp
  · intro h
    have hdec := getDecoratorByMethod_str ctx.method
    rw [hdec] at h
    have hstep : navStep env ctx = (.error (.http 404 "Not Found"), []) := by
      unfold navStep
      rw [hdec]
      rw [if_pos (by decide : Decorator.Get ≠ Decorator.Options)]
      unfold routeInvoke
      rw [h]
      simp [notFoundError]
    unfold navigating
    rw [hstep]
    simp

/-- Environment whose GET handler `"boom"` raises a fault that is not an
`HttpError`. -/
def c6Env : DispatchEnv where
  registry := fun d => match d with
    | .Get => [("boom", [⟨some "/b", "boom", none⟩])]
    | _ => []
  hasAuthService := false
  hasAuthMetadata := fun _ => false
  isAuth := true
  invokeResult := fun _ => .error (.other "boom")

/-- A `GET /b` request for the faulting handler. -/
def c6Ctx : Ctx := ⟨"GET", "/b", [], [], [], 200, "", "", .empty⟩

/-- Witness for C6: the non-HTTP fault of the handler `"boom"` is
translated to status 500 and reported to `console.error`. -/
theorem C6_witness :
    (navigating c6Env c6Ctx).ctx.status = 500 ∧
    Effect.consoleError ∈ (navigating c6Env c6Ctx).effects ∧
    (navigating c6Env c6Ctx).nextCalled = false :=
  (C6_fault_translation c6Env c6Ctx).2.1 "boom"
    [.gotController, .gotMethodParameters, .containerInvoke "boom"] rfl

/-- Metadata entry declaring an overriding content type for its handler. -/
def c7Meta : RouteMetadata := ⟨some "/x", "go", some "text/plain"⟩

/-- Environment whose GET handler `"go"` (declared content type
`text/plain`) returns the string `"hi"`. -/
def c7Env : DispatchEnv where
  registry := fun d => match d with
    | .Get => [("go", [c7Meta])]
    | _ => []
  hasAuthService := false
  hasAuthMetadata := fun _ => false
  isAuth := true
  invokeResult := fun _ => .ok (.str "hi")

/-- Same environment with no declared content type on the metadata. -/
def c7EnvDefault : DispatchEnv where
  registry := fun d => match d with
    | .Get => [("go", [⟨some "/x", "go", none⟩])]
    | _ => []
  hasAuthService := false
  hasAuthMetadata := fun _ => false
  isAuth := true
  invokeResult := fun _ => .ok (.str "hi")

/-- A `GET /x` request; the context's content type starts unset. -/
def c7Ctx : Ctx := ⟨"GET", "/x", [], [], [], 200, "", "", .empty⟩

/-- C7, evaluation at the failing input: when the handler returns the
string `"hi"`, the body is set to it, but the response content type is
never assigned in the string branch — neither the declared override
`text/plain` nor the `text/html` default is applied (the computed local
is discarded), so the context type stays unset in both cases, while the
plain-object branch does assign its content type. -/
theorem C7_eval :
    (navigating c7Env c7Ctx).ctx.body = Body.str "hi" ∧
    (navigating c7Env c7Ctx).ctx.type = "" ∧
    (navigating c7Env c7Ctx).ctx.type ≠ "text/plain" ∧
    (navigating c7EnvDefault c7Ctx).ctx.body = Body.str "hi" ∧
    (navigating c7EnvDefault c7Ctx).ctx.type = "" ∧
    (navigating c7EnvDefault c7Ctx).ctx.type ≠ "text/html" := by
  decide

/-- CORS options record (`CorsOptions` of `Configuration.ts`, also the
shape of decorator-declared `CorsMetadata`): every field optional;
`allowMethods` is a string or a list of verbs, `allowHeaders` a string
or a list of header names. -/
structure CorsOptions where
  credentials : Option Bool
  exposeHeaders : Option String
  keepHeadersOnError : Option Bool
  allowMethods : Option (Sum String (List RequestMethod))
  allowHeaders : Option (Sum String (List String))
  maxAge : Option Nat
  deriving Repr, DecidableEq

/-- The empty options object `{}` used when `config.corsOptions` is
undefined. -/
def emptyCors : CorsOptions := ⟨none, none, none, none, none, none⟩

/-- Model of `Object.assign({}, options, corsmetas[0])`: each field
present on the metadata overrides the global default. -/
def corsAssign (base over : CorsOptions) : CorsOptions :=
  ⟨over.credentials <|> base.credentials,
   over.exposeHeaders <|> base.exposeHeaders,
   over.keepHeadersOnError <|> base.keepHeadersOnError,
   over.allowMethods <|> base.allowMethods,
   over.allowHeaders <|> base.allowHeaders,
   over.maxAge <|> base.maxAge⟩

/-- JavaScript `String(x)` on an optional number: an absent value
stringifies to `"undefined"`, which is a truthy, nonempty string. -/
def jsStringOfOptNat : Option Nat → String
  | some n => toString n
  | none => "undefined"

/-- Truthiness of an optional string value. -/
def optStrTruthy : Option String → Bool
  | some s => strTruthy s
  | none => false

/-- Koa-style header read: `ctx.get(name)` yields `''` when absent. -/
def getHeader (hs : List (String × String)) (k : String) : String :=
  match hs.find? (fun p => p.1 == k) with
  | some p => p.2
  | none => ""

/-- Koa-style header write: `ctx.set(name, value)` overwrites an
existing header of that name or appends a new one. -/
def setHeader (hs : List (String × String)) (k v : String) : List (String × String) :=
  if hs.any (fun p => p.1 == k) then
    hs.map (fun p => if p.1 == k then (k, v) else p)
  else
    hs ++ [(k, v)]

/-- External collaborators of `invokeOption`: the global configuration's
`corsOptions`, the route-metadata registry, and the CORS metadata
declared at handler level (`getMethodMetadata(Cors, ...)`, per property
key) and at controller level (`getTypeMetadata(Cors, ...)`). -/
structure CorsEnv where
  corsOptions : Option CorsOptions
  registry : Decorator → MethodMaps
  methodCors : String → List CorsOptions
  typeCors : List CorsOptions

/-- Model of `ControllerRoute.invokeOption`: always vary on `Origin`;
without an `Origin` header continue the pipeline.  A non-`OPTIONS`
method emits the simple cross-origin headers from the global options
and continues.  An `OPTIONS` request without
`Access-Control-Request-Method` continues unmodified; otherwise the
route matcher is run for the requested method's bucket, the CORS
metadata for the matched handler is resolved (method level first, then
controller level), and if any resolves, the preflight headers are
emitted over the merged options and the pipeline terminates with
status 204; if none resolves, the pipeline continues.  The
`keepHeadersOnError` re-attachment of emitted headers to a downstream
error is outside this model (no downstream fault is modelled here). -/
def invokeOption (env : CorsEnv) (ctx0 : Ctx) : Ctx × Bool :=
  let requestOrigin := getHeader ctx0.reqHeaders "Origin"
  let ctx := { ctx0 with varied := ctx0.varied ++ ["Origin"] }
  if ¬ strTruthy requestOrigin then
    (ctx, true)
  else
    let origin := requestOrigin
    let options := env.corsOptions.getD emptyCors
    if ctx.method ≠ "OPTIONS" then
      let ctx := { ctx with
        respHeaders := setHeader ctx.respHeaders "Access-Control-Allow-Origin" origin }
      let ctx := if options.credentials = some true then
          { ctx with
            respHeaders := setHeader ctx.respHeaders "Access-Control-Allow-Credentials" "true" }
        else ctx
      let ctx := if optStrTruthy options.exposeHeaders then
          { ctx with
            respHeaders := setHeader ctx.respHeaders "Access-Control-Expose-Headers"
              (options.exposeHeaders.getD "") }
        else ctx
      (ctx, true)
    else
      if ¬ strTruthy (getHeader ctx.reqHeaders "Access-Control-Request-Method") then
        (ctx, true)
      else
        let method := parseRequestMethod (getHeader ctx.reqHeaders "Access-Control-Request-Method")
        match getRouteMetaData ctx.routPath
            (env.registry (getDecoratorByMethod (JsMethod.num method))) with
        | some meta =>
          if strTruthy meta.propertyKey then
            let corsmetas0 := env.methodCors meta.propertyKey
            let corsmetas := if corsmetas0.length < 1 then env.typeCors else corsmetas0
            match corsmetas with
            | c :: _ =>
              let options := corsAssign options c
              let ctx := { ctx with
                respHeaders := setHeader ctx.respHeaders "Access-Control-Allow-Origin" origin }
              let ctx := if options.credentials = some true then
                  { ctx with
                    respHeaders :=
                      setHeader ctx.respHeaders "Access-Control-Allow-Credentials" "true" }
                else ctx
              let maxAge := jsStringOfOptNat options.maxAge
              let ctx := if strTruthy maxAge then
                  { ctx with
                    respHeaders := setHeader ctx.respHeaders "Access-Control-Max-Age" maxAge }
                else ctx
              let allowsM0 : Option String := match options.allowMethods with
                | some (.inr ms) => some (String.intercalate "," (ms.map methodToString))
                | some (.inl s) => some s
                | none => none
              let allowsM := jsOrStr allowsM0 "GET,HEAD,PUT,POST,DELETE,PATCH"
              let ctx := if strTruthy allowsM then
                  { ctx with
                    respHeaders := setHeader ctx.respHeaders "Access-Control-Allow-Methods" allowsM }
                else ctx
              let allowH0 : Option String := match options.allowHeaders with
                | some (.inr hl) => some (String.intercalate "," hl)
                | some (.inl s) => some s
                | none => none
              let allowH := jsOrStr allowH0 (getHeader ctx.reqHeaders "Access-Control-Request-Headers")
              let ctx := if strTruthy allowH then
                  { ctx with
                    respHeaders := setHeader ctx.respHeaders "Access-Control-Allow-Headers" allowH }
                else ctx
              ({ ctx with status := 204 }, false)
            | [] => (ctx, true)
          else (ctx, true)
        | none => (ctx, true)

/-- Preflight environment for a CORS-enabled GET handler `"go"` whose
resolved CORS metadata configures no `maxAge` (and no global default
exists either). -/
def c8Env : CorsEnv where
  corsOptions := none
  registry := fun d => match d with
    | .Get => [("go", [⟨some "/items", "go", none⟩])]
    | _ => []
  methodCors := fun pk => if pk == "go" then [emptyCors] else []
  typeCors := []

/-- The same environment with `maxAge` configured to 600 on the
handler's CORS metadata. -/
def c8EnvMax : CorsEnv where
  corsOptions := none
  registry := fun d => match d with
    | .Get => [("go", [⟨some "/items", "go", none⟩])]
    | _ => []
  methodCors := fun pk =>
    if pk == "go" then [⟨none, none, none, none, none, some 600⟩] else []
  typeCors := []

/-- A preflight `OPTIONS /items` request with an `Origin` and
`Access-Control-Request-Method: GET`. -/
def c8Ctx : Ctx :=
  ⟨"OPTIONS", "/items",
   [("Origin", "https://a.com"), ("Access-Control-Request-Method", "GET")],
   [], [], 200, "", "", .empty⟩

/-- C8, evaluation at the failing input: in the preflight 204 branch the
code computes `String(options.maxAge)` before testing truthiness, and
`String(undefined)` is the truthy string `"undefined"`, so when no
`maxAge` is configured the response still carries
`Access-Control-Max-Age: undefined` — the claim's "no header when not
configured" direction is violated, while a configured `maxAge` is
emitted as its decimal rendering. -/
theorem C8_eval :
    (invokeOption c8Env c8Ctx).1.status = 204 ∧
    (invokeOption c8Env c8Ctx).2 = false ∧
    ("Access-Control-Max-Age", "undefined") ∈ (invokeOption c8Env c8Ctx).1.respHeaders ∧
    (invokeOption c8EnvMax c8Ctx).1.status = 204 ∧
    ("Access-Control-Max-Age", "600") ∈ (invokeOption c8EnvMax c8Ctx).1.respHeaders := by
  decide

/-- An entry of the middleware ordering chain (`OrderMiddleware`):
an optional name and its middleware token (tokens are opaque and
modelled by numeric ids). -/
structure OrderMiddleware where
  name : Option String
  middleware : Nat
  deriving Repr, DecidableEq

/-- Middleware metadata (`MiddlewareMetadata`): the declared name and
the optional relative-ordering constraints. -/
structure MiddlewareMetadata where
  name : Option String
  before : Option String
  after : Option String
  deriving Repr, DecidableEq

/-- The `findIndex` predicate `v => v.name && v.name === target`: the
entry's name must be truthy and equal to the target. -/
def nameMatches (target : String) (v : OrderMiddleware) : Bool :=
  match v.name with
  | some s => strTruthy s && s == target
  | none => false

/-- JavaScript `Array.prototype.findIndex`: the index of the first
matching entry, or `-1`. -/
def findIndexJs (p : OrderMiddleware → Bool) (chain : List OrderMiddleware) : Int :=
  match chain.findIdx? p with
  | some i => (i : Int)
  | none => -1

/-- Model of `MiddlewareChain.insertByMeta`: an empty chain just
receives the entry; otherwise the insertion index starts at the chain
length, a truthy `before` constraint replaces it by the index of the
first entry so named, a truthy `after` constraint replaces it by that
index plus one (overriding any `before`), and an out-of-range index
appends while an in-range one splices the entry in at that position. -/
def insertByMeta (meta : MiddlewareMetadata) (middleware : Nat)
    (chain : List OrderMiddleware) : List OrderMiddleware :=
  let ordMidd : OrderMiddleware := ⟨meta.name, middleware⟩
  if chain.length < 1 then
    chain ++ [ordMidd]
  else
    let idx0 : Int := chain.length
    let idx1 : Int := match meta.before with
      | some b => if strTruthy b then findIndexJs (nameMatches b) chain else idx0
      | none => idx0
    let idx2 : Int := match meta.after with
      | some a => if strTruthy a then findIndexJs (nameMatches a) chain + 1 else idx1
      | none => idx1
    if idx2 < 0 ∨ (chain.length : Int) ≤ idx2 then
      chain ++ [ordMidd]
    else
      chain.take idx2.toNat ++ [ordMidd] ++ chain.drop idx2.toNat

/-- C9: for every insertion declaring `before = X` (and no `after`
constraint) at a moment when an entry named `X` is present in the
chain, the new entry is spliced in immediately preceding the first
occurrence of the entry named `X` (`i` is that first index); all
existing entries keep their positions relative to one another, so a
later insertion never rearranges what is already in the chain. -/
theorem C9_before_insertion (meta : MiddlewareMetadata) (mw : Nat)
    (chain : List OrderMiddleware) (X : String) (i : Nat)
    (hbefore : meta.before = some X) (hX : strTruthy X = true)
    (hafter : meta.after = none)
    (hidx : chain.findIdx? (nameMatches X) = some i) :
    insertByMeta meta mw chain = chain.take i ++ [⟨meta.name, mw⟩] ++ chain.drop i := by
  obtain ⟨hlen, -, -⟩ := List.findIdx?_eq_some_iff_getElem.mp hidx
  have hne : ¬ chain.length < 1 := by omega
  have hfi : findIndexJs (nameMatches X) chain = (i : Int) := by
    unfold findIndexJs
    rw [hidx]
  unfold insertByMeta
  rw [if_neg hne, hbefore, hafter]
  simp only [hX, if_true, hfi]
  rw [if_neg (by omega)]
  simp

/-- Chain with one leading entry and two entries named `"X"`. -/
def c9Chain : List OrderMiddleware := [⟨some "a", 1⟩, ⟨some "X", 2⟩, ⟨some "X", 3⟩]

/-- Witness for C9: inserting `⟨"m", before := "X"⟩` into `c9Chain`
splices the new entry at index 1, immediately before the first entry
named `"X"`. -/
theorem C9_witness :
    insertByMeta ⟨some "m", some "X", none⟩ 9 c9Chain =
      c9Chain.take 1 ++ [⟨some "m", 9⟩] ++ c9Chain.drop 1 :=
  C9_before_insertion ⟨some "m", some "X", none⟩ 9 c9Chain "X" 1 rfl (by decide) rfl
    (by decide)

/-- C10: for every insertion into a non-empty chain declaring a truthy
`after = X` when no entry named `X` is present, `findIndex` yields `-1`,
so the insertion index is `-1 + 1 = 0` and the new entry is spliced in
at the very front of the chain — not appended at the end. -/
theorem C10_after_missing_front (meta : MiddlewareMetadata) (mw : Nat)
    (chain : List OrderMiddleware) (X : String)
    (hafter : meta.after = some X) (hX : strTruthy X = true)
    (hmiss : chain.findIdx? (nameMatches X) = none)
    (hne : chain ≠ []) :
    insertByMeta meta mw chain = ⟨meta.name, mw⟩ :: chain := by
  have hlen : ¬ chain.length < 1 := by
    cases chain with
    | nil => exact absurd rfl hne
    | cons a l => simp
  have hfi : findIndexJs (nameMatches X) chain = -1 := by
    unfold findIndexJs
    rw [hmiss]
  unfold insertByMeta
  rw [if_neg hlen, hafter]
  simp only [hX, if_true, hfi]
  rw [if_neg (by omega)]
  simp

/-- Chain with a single entry, named differently from `"X"`. -/
def c10Chain : List OrderMiddleware := [⟨some "a", 1⟩]

/-- Witness for C10: inserting `⟨"m", after := "X"⟩` into the non-empty
chain `c10Chain`, which has no entry named `"X"`, places the new entry
at index 0. -/
theorem C10_witness :
    insertByMeta ⟨some "m", none, some "X"⟩ 9 c10Chain =
      ⟨some "m", 9⟩ :: c10Chain :=
  C10_after_missing_front ⟨some "m", none, some "X"⟩ 9 c10Chain "X" rfl (by decide)
    (by decide) (by decide)
